import Mathlib

/-!
Shallow embedding of the motion/position subsystem of the BCC950 PTZ camera
control library (C++ sources under src/cpp).  `double` is modelled as `ℚ`
(exact arithmetic; all constants and all inputs used in the claims are
exactly representable), `int` as `ℤ`.  Stateful code is modelled by explicit
state passing; fallible device calls return `Except`.
-/

namespace BCC950

/-! ### Constants (include/bcc950/constants.hpp) -/

def ZOOM_MIN : ℤ := 100

def ZOOM_MAX : ℤ := 500

def ZOOM_DEFAULT : ℤ := ZOOM_MIN

def PAN_SPEED_MIN : ℤ := -1

def PAN_SPEED_MAX : ℤ := 1

def EST_PAN_MIN : ℚ := -5

def EST_PAN_MAX : ℚ := 5

def EST_TILT_MIN : ℚ := -3

def EST_TILT_MAX : ℚ := 3

/-- `std::clamp(v, lo, hi)` on `double`: `comp(v, lo) ? lo : comp(hi, v) ? hi : v`. -/
def clampQ (v lo hi : ℚ) : ℚ := if v < lo then lo else if hi < v then hi else v

/-- `std::clamp(v, lo, hi)` on `int`. -/
def clampI (v lo hi : ℤ) : ℤ := if v < lo then lo else if hi < v then hi else v

/-! ### PositionTracker (src/cpp/src/position.cpp) -/

structure PositionTracker where
  pan : ℚ := 0
  tilt : ℚ := 0
  zoom : ℤ := ZOOM_DEFAULT
  pan_min : ℚ := EST_PAN_MIN
  pan_max : ℚ := EST_PAN_MAX
  tilt_min : ℚ := EST_TILT_MIN
  tilt_max : ℚ := EST_TILT_MAX
deriving Repr, DecidableEq

/-- `PositionTracker::update_pan`: `pan += speed * duration; pan = clamp(pan, pan_min, pan_max)`. -/
def PositionTracker.update_pan (p : PositionTracker) (speed : ℤ) (duration : ℚ) :
    PositionTracker :=
  { p with pan := clampQ (p.pan + speed * duration) p.pan_min p.pan_max }

/-- `PositionTracker::update_tilt`. -/
def PositionTracker.update_tilt (p : PositionTracker) (speed : ℤ) (duration : ℚ) :
    PositionTracker :=
  { p with tilt := clampQ (p.tilt + speed * duration) p.tilt_min p.tilt_max }

/-- `PositionTracker::update_zoom`: `zoom = clamp(value, ZOOM_MIN, ZOOM_MAX)`. -/
def PositionTracker.update_zoom (p : PositionTracker) (value : ℤ) : PositionTracker :=
  { p with zoom := clampI value ZOOM_MIN ZOOM_MAX }

/-- `PositionTracker::reset`: `pan = 0.0; tilt = 0.0; zoom = ZOOM_DEFAULT`. -/
def PositionTracker.reset (p : PositionTracker) : PositionTracker :=
  { p with pan := 0, tilt := 0, zoom := ZOOM_DEFAULT }

/-! ### Device interface and MotionController (src/cpp/src/motion.cpp)

The device is abstracted by a success oracle: given the number of
`set_control` calls already issued, a control id and a value, it tells
whether this `set_control` call succeeds (`true`) or throws a device error
(`false`).  Each operation carries an `MCState`: the trace of device
interactions so far (set commands and sleeps) plus the position tracker.
On failure the thrown error carries the state at the throw point, so that
what was and was not updated is observable. -/

inductive CtrlId | panSpeed | tiltSpeed | zoomAbsolute
deriving Repr, DecidableEq

inductive Event
  | set (id : CtrlId) (value : ℤ)
  | wait (duration : ℚ)
deriving Repr, DecidableEq

abbrev Device := ℕ → CtrlId → ℤ → Bool

/-- The always-succeeding device. -/
def okDev : Device := fun _ _ _ => true

/-- The always-failing device. -/
def failDev : Device := fun _ _ _ => false

structure MCState where
  trace : List Event := []
  pos : PositionTracker := {}
deriving Repr, DecidableEq

/-- Number of `set_control` calls recorded in a trace. -/
def countSets : List Event → ℕ
  | [] => 0
  | Event.set _ _ :: es => countSets es + 1
  | Event.wait _ :: es => countSets es

/-- `device_->set_control(id, v)`: the command reaches the device and is
recorded; if the device reports failure the error propagates, carrying the
state at the throw point. -/
def set_control (dev : Device) (id : CtrlId) (v : ℤ) (s : MCState) :
    Except MCState MCState :=
  let s' : MCState := { s with trace := s.trace ++ [Event.set id v] }
  if dev (countSets s.trace) id v then Except.ok s' else Except.error s'

/-- `std::this_thread::sleep_for(duration)` inside a motion operation. -/
def sleep_for (d : ℚ) (s : MCState) : MCState :=
  { s with trace := s.trace ++ [Event.wait d] }

/-- `MotionController::clamp_speed`: `std::clamp(value, PAN_SPEED_MIN, PAN_SPEED_MAX)`. -/
def clamp_speed (value : ℤ) : ℤ := clampI value PAN_SPEED_MIN PAN_SPEED_MAX

/-- `MotionController::clamp_zoom`: `std::clamp(value, ZOOM_MIN, ZOOM_MAX)`. -/
def clamp_zoom (value : ℤ) : ℤ := clampI value ZOOM_MIN ZOOM_MAX

namespace MotionController

/-- `MotionController::pan(direction, duration)`. -/
def pan (dev : Device) (direction : ℤ) (duration : ℚ) (s : MCState) :
    Except MCState MCState := do
  let speed := clamp_speed direction
  let s ← set_control dev CtrlId.panSpeed speed s
  let s := sleep_for duration s
  let s ← set_control dev CtrlId.panSpeed 0 s
  Except.ok { s with pos := s.pos.update_pan speed duration }

/-- `MotionController::tilt(direction, duration)`. -/
def tilt (dev : Device) (direction : ℤ) (duration : ℚ) (s : MCState) :
    Except MCState MCState := do
  let speed := clamp_speed direction
  let s ← set_control dev CtrlId.tiltSpeed speed s
  let s := sleep_for duration s
  let s ← set_control dev CtrlId.tiltSpeed 0 s
  Except.ok { s with pos := s.pos.update_tilt speed duration }

/-- `MotionController::combined_move(pan_dir, tilt_dir, duration)`. -/
def combined_move (dev : Device) (pan_dir tilt_dir : ℤ) (duration : ℚ)
    (s : MCState) : Except MCState MCState := do
  let pan_speed := clamp_speed pan_dir
  let tilt_speed := clamp_speed tilt_dir
  let s ← set_control dev CtrlId.panSpeed pan_speed s
  let s ← set_control dev CtrlId.tiltSpeed tilt_speed s
  let s := sleep_for duration s
  let s ← set_control dev CtrlId.panSpeed 0 s
  let s ← set_control dev CtrlId.tiltSpeed 0 s
  Except.ok { s with pos :=
    (s.pos.update_pan pan_speed duration).update_tilt tilt_speed duration }

/-- `MotionController::combined_move_with_zoom(pan_dir, tilt_dir, zoom_target, duration)`. -/
def combined_move_with_zoom (dev : Device) (pan_dir tilt_dir zoom_target : ℤ)
    (duration : ℚ) (s : MCState) : Except MCState MCState := do
  let pan_speed := clamp_speed pan_dir
  let tilt_speed := clamp_speed tilt_dir
  let zt := clamp_zoom zoom_target
  let s ← set_control dev CtrlId.panSpeed pan_speed s
  let s ← set_control dev CtrlId.tiltSpeed tilt_speed s
  let s ← set_control dev CtrlId.zoomAbsolute zt s
  let s := sleep_for duration s
  let s ← set_control dev CtrlId.panSpeed 0 s
  let s ← set_control dev CtrlId.tiltSpeed 0 s
  Except.ok { s with pos :=
    (((s.pos.update_pan pan_speed duration).update_tilt tilt_speed duration).update_zoom zt) }

/-- `MotionController::zoom_absolute(value)`. -/
def zoom_absolute (dev : Device) (value : ℤ) (s : MCState) :
    Except MCState MCState := do
  let v := clamp_zoom value
  let s ← set_control dev CtrlId.zoomAbsolute v s
  Except.ok { s with pos := s.pos.update_zoom v }

/-- `MotionController::zoom_relative(delta)`. -/
def zoom_relative (dev : Device) (delta : ℤ) (s : MCState) :
    Except MCState MCState := do
  let new_value := clamp_zoom (s.pos.zoom + delta)
  let s ← set_control dev CtrlId.zoomAbsolute new_value s
  Except.ok { s with pos := s.pos.update_zoom new_value }

/-- `MotionController::stop()`. -/
def stop (dev : Device) (s : MCState) : Except MCState MCState := do
  let s ← set_control dev CtrlId.panSpeed 0 s
  let s ← set_control dev CtrlId.tiltSpeed 0 s
  Except.ok s

end MotionController

/-- `Controller::reset_position()` (src/cpp/src/controller.cpp): four nudges,
then `zoom_absolute(ZOOM_MIN)`, then `position_.reset()`. -/
def Controller.reset_position (dev : Device) (s : MCState) :
    Except MCState MCState := do
  let s ← MotionController.pan dev 1 (1/10) s
  let s ← MotionController.pan dev (-1) (1/10) s
  let s ← MotionController.tilt dev 1 (1/10) s
  let s ← MotionController.tilt dev (-1) (1/10) s
  let s ← MotionController.zoom_absolute dev ZOOM_MIN s
  Except.ok { s with pos := s.pos.reset }

/-! ### Number formatting (`operator<<` on `double`, default precision 6)

`to_json` prints `pos.pan` with `std::ostream`'s defaults: `defaultfloat`
with precision 6, i.e. printf `%g`: round to 6 significant decimal digits,
use scientific notation when the decimal exponent is `< -4` or `≥ 6`,
otherwise fixed notation, and strip trailing fractional zeros. -/

/-- Decimal digit characters of a natural number, most significant first. -/
def natStr (n : ℕ) : String := ⟨Nat.toDigits 10 n⟩

/-- `operator<<` on `int`. -/
def intStr (z : ℤ) : String := if z < 0 then "-" ++ natStr z.natAbs else natStr z.natAbs

/-- Round to the nearest integer, ties to even. -/
def roundHalfEven (q : ℚ) : ℤ :=
  let f := ⌊q⌋
  let r := q - f
  if r < 1/2 then f else if 1/2 < r then f + 1 else if 2 ∣ f then f else f + 1

/-- `⌊log10 q⌋` for `q > 0`: the `e` with `10^e ≤ q < 10^(e+1)`. -/
def floorLog10 (q : ℚ) : ℤ :=
  let d : ℤ := (Nat.log 10 q.num.natAbs : ℤ) - (Nat.log 10 q.den : ℤ)
  if (10 : ℚ) ^ (d + 1) ≤ q then d + 1 else if (10 : ℚ) ^ d ≤ q then d else d - 1

/-- Remove trailing `'0'` characters. -/
def stripZeros (ds : List Char) : List Char := (ds.reverse.dropWhile (· = '0')).reverse

/-- Fixed-notation body from the 6 significant digits and exponent `e ∈ [-4, 5]`. -/
def fmtFixed (digs : List Char) (e : ℤ) : String :=
  if 0 ≤ e then
    let ip := digs.take (e.toNat + 1)
    let fp := stripZeros (digs.drop (e.toNat + 1))
    ⟨ip ++ if fp = [] then [] else '.' :: fp⟩
  else
    ⟨'0' :: '.' :: (List.replicate (-e - 1).toNat '0' ++ stripZeros digs)⟩

/-- Scientific-notation body from the 6 significant digits and exponent `e`. -/
def fmtSci (digs : List Char) (e : ℤ) : String :=
  let fp := stripZeros (digs.drop 1)
  let mant : List Char := digs.take 1 ++ if fp = [] then [] else '.' :: fp
  let ea := e.natAbs
  ⟨mant⟩ ++ "e" ++ (if e < 0 then "-" else "+") ++
    (if ea < 10 then "0" ++ natStr ea else natStr ea)

/-- `%g` with precision 6, the default `std::ostream` rendering of a `double`. -/
def fmtDouble (q : ℚ) : String :=
  if q = 0 then "0"
  else
    let a := |q|
    let e0 := floorLog10 a
    let n0 := roundHalfEven (a * (10 : ℚ) ^ (5 - e0))
    let n : ℤ := if n0 = 10 ^ 6 then 10 ^ 5 else n0
    let e : ℤ := if n0 = 10 ^ 6 then e0 + 1 else e0
    let digs := Nat.toDigits 10 n.toNat
    let body := if e < -4 ∨ 6 ≤ e then fmtSci digs e else fmtFixed digs e
    if q < 0 then "-" ++ body else body

/-! ### PresetManager serialization (src/cpp/src/presets.cpp) -/

/-- One entry of `PresetManager::to_json`'s output (without the separator). -/
def fmtPreset (name : String) (p : PositionTracker) : String :=
  "  \"" ++ name ++ "\": \x7b\n" ++
  "    \"pan\": " ++ fmtDouble p.pan ++ ",\n" ++
  "    \"tilt\": " ++ fmtDouble p.tilt ++ ",\n" ++
  "    \"zoom\": " ++ intStr p.zoom ++ "\n" ++
  "  \x7d"

/-- The comma-separated preset entries of `to_json`. -/
def toJsonBody : List (String × PositionTracker) → String
  | [] => ""
  | [(n, p)] => fmtPreset n p
  | (n, p) :: rest => fmtPreset n p ++ ",\n" ++ toJsonBody rest

/-- `PresetManager::to_json` over the (name-sorted) preset map. -/
def to_json (m : List (String × PositionTracker)) : String :=
  "\x7b\n" ++ toJsonBody m ++ "\n\x7d\n"

/-- `std::map` insert-or-assign (`presets_[name] = pt`), keeping keys sorted. -/
def mapInsert (k : String) (v : PositionTracker) :
    List (String × PositionTracker) → List (String × PositionTracker)
  | [] => [(k, v)]
  | (k1, v1) :: rest =>
    if k < k1 then (k, v) :: (k1, v1) :: rest
    else if k = k1 then (k, v) :: rest
    else (k1, v1) :: mapInsert k v rest

/-- `std::map::find`. -/
def mapFind (k : String) : List (String × PositionTracker) → Option PositionTracker
  | [] => none
  | (k1, v1) :: rest => if k = k1 then some v1 else mapFind k rest

/-! ### The hand-written JSON parser (`PresetManager::from_json`) -/

/-- Whitespace recognized by `skip_ws`. -/
def isWs (c : Char) : Bool := c == ' ' || c == '\t' || c == '\n' || c == '\r'

/-- The character class consumed by `read_number`. -/
def isNumChar (c : Char) : Bool :=
  c == '-' || c == '+' || c == '.' || c == 'e' || c == 'E' || ('0' ≤ c && c ≤ '9')

def isDigit (c : Char) : Bool := '0' ≤ c && c ≤ '9'

/-- Body scan of `read_quoted_string`: collect until an unescaped `'"'`
(or end of input); a backslash makes the next character literal. -/
def rqsBody : List Char → List Char × List Char
  | [] => ([], [])
  | '"' :: cs => ([], '"' :: cs)
  | '\\' :: c :: cs => let (r, rest) := rqsBody cs; (c :: r, rest)
  | '\\' :: [] => (['\\'], [])
  | c :: cs => let (r, rest) := rqsBody cs; (c :: r, rest)

/-- After the body scan, `read_quoted_string` skips the closing quote when
one is present. -/
def skipQuote : List Char → List Char
  | '"' :: t => t
  | t => t

/-- `read_quoted_string` after the opening quote: body, then skip the
closing quote when present. -/
def rqs (cs : List Char) : String × List Char :=
  (⟨(rqsBody cs).1⟩, skipQuote (rqsBody cs).2)

def digitsVal (ds : List Char) : ℕ :=
  ds.foldl (fun a c => a * 10 + (c.toNat - '0'.toNat)) 0

/-- `std::stod` on a span of `isNumChar` characters: parse the longest valid
decimal-number prefix; error when no conversion is possible. -/
def stod (cs : List Char) : Except Unit ℚ :=
  let (neg, cs1) :=
    match cs with
    | '-' :: t => (true, t)
    | '+' :: t => (false, t)
    | t => (false, t)
  let ip := cs1.takeWhile isDigit
  let cs2 := cs1.dropWhile isDigit
  let (fp, cs3) :=
    match cs2 with
    | '.' :: t => (t.takeWhile isDigit, t.dropWhile isDigit)
    | t => ([], t)
  if ip = [] ∧ fp = [] then Except.error ()
  else
    let mant : ℚ := (digitsVal ip : ℚ) + (digitsVal fp : ℚ) / 10 ^ fp.length
    let ex : ℤ :=
      match cs3 with
      | 'e' :: t | 'E' :: t =>
        let (es, t1) :=
          match t with
          | '-' :: u => ((-1 : ℤ), u)
          | '+' :: u => ((1 : ℤ), u)
          | u => ((1 : ℤ), u)
        let ed := t1.takeWhile isDigit
        if ed = [] then 0 else es * (digitsVal ed : ℤ)
      | _ => 0
    let v := mant * (10 : ℚ) ^ ex
    Except.ok (if neg then -v else v)

/-- `static_cast<int>` on a `double`: truncation toward zero. -/
def truncQ (q : ℚ) : ℤ := if q < 0 then -⌊-q⌋ else ⌊q⌋

/-- The states of the `from_json` state machine. -/
inductive PState
  | ROOT | PRESET_KEY | COLON_1 | INNER_OPEN | FIELD_KEY
  | COLON_2 | FIELD_VALUE | FIELD_SEP | PRESET_SEP
deriving Repr, DecidableEq

/-- The mutable locals of `from_json` plus the preset map being built. -/
structure PMachine where
  cur_preset : String := ""
  cur_field : String := ""
  pan_val : ℚ := 0
  tilt_val : ℚ := 0
  zoom_val : ℤ := ZOOM_DEFAULT
  acc : List (String × PositionTracker) := []
deriving Repr, DecidableEq

/-- Outcome of `from_json`: normal return, a thrown parse error (carrying
the preset map at the throw point, since the map member is mutated in
place), or non-termination of the `while` loop. -/
inductive ParseResult
  | ok (presets : List (String × PositionTracker))
  | err (presets : List (String × PositionTracker))
  | hang
deriving Repr, DecidableEq

/-- Field assignment in the `FIELD_VALUE` case: unknown field names are
silently ignored. -/
def applyField (m : PMachine) (v : ℚ) : PMachine :=
  if m.cur_field = "pan" then { m with pan_val := v }
  else if m.cur_field = "tilt" then { m with tilt_val := v }
  else if m.cur_field = "zoom" then { m with zoom_val := truncQ v }
  else m

/-- Result of one iteration of the `from_json` `while` loop. -/
inductive StepRes
  | done (r : ParseResult)
  | cont (st : PState) (cs : List Char) (m : PMachine)
deriving Repr, DecidableEq

/-- One iteration of the `from_json` `while` loop: run `skip_ws`, return
normally at end of input, otherwise dispatch on the state.  In the C++ the
cases that expect `':'`, an inner `'{'`, or a separator and see any other
character leave `i` and every variable unchanged, so the loop repeats the
identical iteration forever: those branches are `done hang`. -/
def fjStep (st : PState) (cs : List Char) (m : PMachine) : StepRes :=
  match cs.dropWhile isWs with
  | [] => StepRes.done (ParseResult.ok m.acc)
  | c :: rest =>
    match st with
    | PState.ROOT =>
      if c = '\x7b' then StepRes.cont PState.PRESET_KEY rest m
      else StepRes.done (ParseResult.err m.acc)
    | PState.PRESET_KEY =>
      if c = '\x7d' then StepRes.done (ParseResult.ok m.acc)
      else if c = '"' then
        StepRes.cont PState.COLON_1 (rqs rest).2 { m with cur_preset := (rqs rest).1 }
      else StepRes.done (ParseResult.err m.acc)
    | PState.COLON_1 =>
      if c = ':' then StepRes.cont PState.INNER_OPEN rest m
      else StepRes.done ParseResult.hang
    | PState.INNER_OPEN =>
      if c = '\x7b' then
        StepRes.cont PState.FIELD_KEY rest
          { m with pan_val := 0, tilt_val := 0, zoom_val := ZOOM_DEFAULT }
      else StepRes.done ParseResult.hang
    | PState.FIELD_KEY =>
      if c = '\x7d' then
        let pt : PositionTracker :=
          { pan := m.pan_val, tilt := m.tilt_val, zoom := m.zoom_val }
        StepRes.cont PState.PRESET_SEP rest
          { m with acc := mapInsert m.cur_preset pt m.acc }
      else if c = '"' then
        StepRes.cont PState.COLON_2 (rqs rest).2 { m with cur_field := (rqs rest).1 }
      else StepRes.done (ParseResult.err m.acc)
    | PState.COLON_2 =>
      if c = ':' then StepRes.cont PState.FIELD_VALUE rest m
      else StepRes.done ParseResult.hang
    | PState.FIELD_VALUE =>
      match stod ((c :: rest).takeWhile isNumChar) with
      | Except.error _ => StepRes.done (ParseResult.err m.acc)
      | Except.ok v =>
        StepRes.cont PState.FIELD_SEP ((c :: rest).dropWhile isNumChar) (applyField m v)
    | PState.FIELD_SEP =>
      if c = ',' then StepRes.cont PState.FIELD_KEY rest m
      else if c = '\x7d' then StepRes.cont PState.FIELD_KEY (c :: rest) m
      else StepRes.done ParseResult.hang
    | PState.PRESET_SEP =>
      if c = ',' then StepRes.cont PState.PRESET_KEY rest m
      else if c = '\x7d' then StepRes.done (ParseResult.ok m.acc)
      else StepRes.done ParseResult.hang

/-- Loop variant: strictly decreases at every `cont` step (proved in
`fjStep_measure`), so running with any fuel above the initial measure is
exactly the unbounded `while` loop. -/
def fjMeasure (st : PState) (cs : List Char) : ℕ :=
  2 * cs.length + (if st = PState.FIELD_SEP then 1 else 0)

/-- The `from_json` loop, driven by fuel.  `from_json` supplies fuel above
the initial measure, and by `fjStep_measure` the fuel can then never be
exhausted, so the `0` case is unreachable there. -/
def fjRun : ℕ → PState → List Char → PMachine → ParseResult
  | 0, _, _, _ => ParseResult.hang
  | fuel + 1, st, cs, m =>
    match fjStep st cs m with
    | StepRes.done r => r
    | StepRes.cont st2 cs2 m2 => fjRun fuel st2 cs2 m2

/-- `PresetManager::from_json`: clears the preset map (`prior` is
discarded) and runs the state machine from `ROOT` on the input. -/
def from_json (prior : List (String × PositionTracker)) (s : List Char) : ParseResult :=
  fjRun (2 * s.length + 2) PState.ROOT s { acc := [] }

/-- `PresetManager::load` on a modelled backing store (`none` = the file
does not exist / cannot be opened): a missing store is silently treated as
empty; present contents go through `from_json` against the prior map. -/
def load (prior : List (String × PositionTracker)) (file : Option String) : ParseResult :=
  match file with
  | none => ParseResult.ok prior
  | some text => from_json prior text.data

/-- Constructing a fresh `PresetManager` on a backing store: the map starts
empty and `load()` runs. -/
def presetManagerInit (file : Option String) : ParseResult := load [] file

/-- `PresetManager::save_preset`: upsert, then persist the whole map; the
result is the new map together with the bytes written to the backing store. -/
def save_preset (m : List (String × PositionTracker)) (name : String)
    (pos : PositionTracker) : List (String × PositionTracker) × String :=
  let m1 := mapInsert name pos m
  (m1, to_json m1)

/-- `PresetManager::recall_preset`. -/
def recall_preset (m : List (String × PositionTracker)) (name : String) :
    Option PositionTracker :=
  mapFind name m

/-- `Controller::recall_preset`: look the name up; when absent return
`false` with no device interaction; when present issue the single motion
call `zoom_absolute(pos->zoom)` and return `true`. -/
def Controller.recall_preset (dev : Device) (presets : List (String × PositionTracker))
    (name : String) (s : MCState) : Except MCState (Bool × MCState) :=
  match mapFind name presets with
  | none => Except.ok (false, s)
  | some p => do
    let s ← MotionController.zoom_absolute dev p.zoom s
    Except.ok (true, s)

/-! ### Concurrency model for the motion mutex

Every public `MotionController` operation is, at the level of device
interaction, one critical section `lock mutex_; (commands, sleeps);
unlock`, because the `std::lock_guard` in each method covers the whole
body.  We model two threads each running one operation as two scripts of
atomic actions (`acquire`/`act`/`release`) interleaved by an arbitrary
scheduler subject only to the mutex discipline: `acquire` is enabled only
when nobody holds the mutex, `release` only for the holder, and an `act`
appends its event to the shared device trace. -/

inductive Action
  | acquire | release | act (e : Event)
deriving Repr, DecidableEq

structure TwoThreads where
  rem1 : List Action
  rem2 : List Action
  owner : Option Bool := none
  trace : List Event := []
deriving Repr, DecidableEq

def setRem (who : Bool) (t : List Action) (s : TwoThreads) : TwoThreads :=
  if who then { s with rem1 := t } else { s with rem2 := t }

/-- One scheduler step: thread `who` (`true` = thread 1) runs its next
action if that action is enabled; `none` means the scheduled thread is
blocked or finished, i.e. the schedule is invalid. -/
def step (who : Bool) (s : TwoThreads) : Option TwoThreads :=
  match (if who then s.rem1 else s.rem2) with
  | [] => none
  | Action.acquire :: t =>
    match s.owner with
    | none => some (setRem who t { s with owner := some who })
    | some _ => none
  | Action.release :: t =>
    if s.owner = some who then some (setRem who t { s with owner := none }) else none
  | Action.act e :: t => some (setRem who t { s with trace := s.trace ++ [e] })

/-- Run a whole schedule. -/
def runSched : List Bool → TwoThreads → Option TwoThreads
  | [], s => some s
  | w :: ws, s =>
    match step w s with
    | none => none
    | some s2 => runSched ws s2

/-- The action script of one motion operation: the `lock_guard` critical
section around its device commands. -/
def lockBlock (cmds : List Event) : List Action :=
  Action.acquire :: (cmds.map Action.act ++ [Action.release])

/-- The public `MotionController` operations, as calls. -/
inductive OpCall
  | pan (direction : ℤ) (duration : ℚ)
  | tilt (direction : ℤ) (duration : ℚ)
  | combined_move (pan_dir tilt_dir : ℤ) (duration : ℚ)
  | combined_move_with_zoom (pan_dir tilt_dir zoom_target : ℤ) (duration : ℚ)
  | zoom_absolute (value : ℤ)
  | zoom_relative (delta : ℤ)
  | stop
deriving Repr, DecidableEq

/-- Dispatch an `OpCall` to the corresponding operation. -/
def runOp (o : OpCall) (dev : Device) (s : MCState) : Except MCState MCState :=
  match o with
  | OpCall.pan d dur => MotionController.pan dev d dur s
  | OpCall.tilt d dur => MotionController.tilt dev d dur s
  | OpCall.combined_move pd td dur => MotionController.combined_move dev pd td dur s
  | OpCall.combined_move_with_zoom pd td zt dur =>
    MotionController.combined_move_with_zoom dev pd td zt dur s
  | OpCall.zoom_absolute v => MotionController.zoom_absolute dev v s
  | OpCall.zoom_relative d => MotionController.zoom_relative dev d s
  | OpCall.stop => MotionController.stop dev s

def exceptState : Except MCState MCState → MCState
  | Except.ok s => s
  | Except.error s => s

@[simp] theorem exceptState_ok (s : MCState) : exceptState (Except.ok s) = s := rfl

@[simp] theorem exceptState_error (s : MCState) : exceptState (Except.error s) = s := rfl

/-- The device interactions one operation performs (on a healthy device),
starting from estimator state `p`. -/
def opCmds (o : OpCall) (p : PositionTracker) : List Event :=
  (exceptState (runOp o okDev { trace := [], pos := p })).trace

/-! ### Run/step infrastructure for the parser proofs -/

/-- Reachability in the `from_json` loop: zero or more `cont` steps. -/
inductive Steps : PState → List Char → PMachine → PState → List Char → PMachine → Prop
  | refl (st : PState) (cs : List Char) (m : PMachine) : Steps st cs m st cs m
  | head {st cs m st1 cs1 m1 st2 cs2 m2} :
    fjStep st cs m = StepRes.cont st1 cs1 m1 → Steps st1 cs1 m1 st2 cs2 m2 →
    Steps st cs m st2 cs2 m2

instance {α β : Type} [DecidableEq α] [DecidableEq β] : DecidableEq (Except α β) :=
  fun a b =>
    match a, b with
    | Except.ok x, Except.ok y =>
      if h : x = y then Decidable.isTrue (by rw [h]) else Decidable.isFalse (by simp [h])
    | Except.error x, Except.error y =>
      if h : x = y then Decidable.isTrue (by rw [h]) else Decidable.isFalse (by simp [h])
    | Except.ok _, Except.error _ => Decidable.isFalse (by simp)
    | Except.error _, Except.ok _ => Decidable.isFalse (by simp)

/-! ## Theorems -/

theorem dropWhile_length_le (p : Char → Bool) (l : List Char) :
    (l.dropWhile p).length ≤ l.length := by
  induction l with
  | nil => simp
  | cons a t ih =>
    rw [List.dropWhile_cons]
    split
    · simp only [List.length_cons]
      omega
    · simp

theorem rqsBody_length_le (cs : List Char) : (rqsBody cs).2.length ≤ cs.length := by
  induction cs using rqsBody.induct with
  | case1 => simp [rqsBody]
  | case2 cs => simp [rqsBody]
  | case3 c cs ih => simp [rqsBody]; omega
  | case4 => simp [rqsBody]
  | case5 c cs h1 h2 ih => simp [rqsBody, h1, h2]; omega

theorem skipQuote_length_le (cs : List Char) : (skipQuote cs).length ≤ cs.length := by
  unfold skipQuote
  split <;> simp

theorem rqs_length_le (cs : List Char) : (rqs cs).2.length ≤ cs.length :=
  le_trans (skipQuote_length_le _) (rqsBody_length_le cs)

theorem stod_ok_ne_nil (cs : List Char) (v : ℚ) (h : stod cs = Except.ok v) :
    cs ≠ [] := by
  intro hnil
  subst hnil
  simp [stod] at h

/-- Every `cont` step of the parser strictly decreases the loop variant. -/
theorem fjStep_measure (st st2 : PState) (cs cs2 : List Char) (m m2 : PMachine)
    (h : fjStep st cs m = StepRes.cont st2 cs2 m2) :
    fjMeasure st2 cs2 < fjMeasure st cs := by
  unfold fjStep at h
  have hd := dropWhile_length_le isWs cs
  rcases hdw : cs.dropWhile isWs with _ | ⟨c, rest⟩
  · rw [hdw] at h
    simp at h
  · rw [hdw] at h
    rw [hdw] at hd
    simp only [List.length_cons] at hd
    unfold fjMeasure
    cases st <;> simp only [] at h
    case ROOT =>
      split_ifs at h <;> cases h <;> simp <;> omega
    case PRESET_KEY =>
      split_ifs at h <;> cases h
      have hr := rqs_length_le rest
      simp
      omega
    case COLON_1 =>
      split_ifs at h <;> cases h <;> simp <;> omega
    case INNER_OPEN =>
      split_ifs at h <;> cases h <;> simp <;> omega
    case FIELD_KEY =>
      split_ifs at h <;> cases h
      · simp
        omega
      · have hr := rqs_length_le rest
        simp
        omega
    case COLON_2 =>
      split_ifs at h <;> cases h <;> simp <;> omega
    case FIELD_VALUE =>
      rcases hst : stod ((c :: rest).takeWhile isNumChar) with u | v
      · rw [hst] at h
        cases h
      · rw [hst] at h
        cases h
        have hne := stod_ok_ne_nil _ _ hst
        have hc : isNumChar c = true := by
          by_contra hcn
          apply hne
          rw [List.takeWhile_cons]
          simp [hcn]
        rw [List.dropWhile_cons, if_pos hc]
        have hq := dropWhile_length_le isNumChar rest
        simp
        omega
    case FIELD_SEP =>
      split_ifs at h <;> cases h <;> simp <;> omega
    case PRESET_SEP =>
      split_ifs at h <;> cases h <;> simp <;> omega

/-- Once both threads are done, no schedule step is possible. -/
theorem runSched_done (sched : List Bool) (o : Option Bool) (tr : List Event)
    (s2 : TwoThreads) (h : runSched sched ⟨[], [], o, tr⟩ = some s2) :
    s2 = ⟨[], [], o, tr⟩ := by
  cases sched with
  | nil => simpa [runSched] using h.symm
  | cons w ws => cases w <;> simp [runSched, step] at h

/-- While thread 1 is in its critical section, thread 2 (parked at its
`acquire`) cannot run; when thread 1 releases, the run continues from the
unlocked state with thread 1 finished and its commands appended. -/
theorem crit1 (sched : List Bool) (xs pre : List Event) (rest2 : List Action)
    (s2 : TwoThreads)
    (h : runSched sched
      ⟨xs.map Action.act ++ [Action.release], Action.acquire :: rest2, some true, pre⟩
      = some s2)
    (h1 : s2.rem1 = []) :
    ∃ ws, runSched ws ⟨[], Action.acquire :: rest2, none, pre ++ xs⟩ = some s2 := by
  induction sched generalizing xs pre with
  | nil =>
    simp [runSched] at h
    rw [← h] at h1
    simp at h1
  | cons w ws ih =>
    cases w with
    | false => simp [runSched, step] at h
    | true =>
      cases xs with
      | nil =>
        refine ⟨ws, ?_⟩
        simpa [runSched, step, setRem] using h
      | cons x xt =>
        simp only [runSched, step, setRem, List.map_cons, List.cons_append,
          if_true, reduceIte] at h
        have h3 := ih xt (pre ++ [x]) h
        simpa [List.append_assoc] using h3

/-- Thread 2 running alone (thread 1 finished): its whole block executes
and its commands land contiguously at the end of the trace. -/
theorem crit2solo (sched : List Bool) (xs pre : List Event) (s2 : TwoThreads)
    (h : runSched sched ⟨[], xs.map Action.act ++ [Action.release], some false, pre⟩
      = some s2)
    (h2 : s2.rem2 = []) : s2.trace = pre ++ xs := by
  induction sched generalizing xs pre with
  | nil =>
    simp [runSched] at h
    rw [← h] at h2
    simp at h2
  | cons w ws ih =>
    cases w with
    | true => simp [runSched, step] at h
    | false =>
      cases xs with
      | nil =>
        simp only [runSched, step, setRem, List.map_nil, List.nil_append,
          reduceIte] at h
        have h3 := runSched_done ws none pre s2 h
        rw [h3]
        simp
      | cons x xt =>
        simp only [runSched, step, setRem, List.map_cons, List.cons_append,
          reduceIte] at h
        have h3 := ih xt (pre ++ [x]) h
        simpa [List.append_assoc] using h3

theorem solo2 (sched : List Bool) (b pre : List Event) (s2 : TwoThreads)
    (h : runSched sched ⟨[], lockBlock b, none, pre⟩ = some s2)
    (h2 : s2.rem2 = []) : s2.trace = pre ++ b := by
  cases sched with
  | nil =>
    simp [runSched] at h
    rw [← h] at h2
    simp [lockBlock] at h2
  | cons w ws =>
    cases w with
    | true => simp [runSched, step] at h
    | false =>
      simp only [runSched, step, setRem, lockBlock, reduceIte] at h
      exact crit2solo ws b pre s2 h h2

/-- Mirror of `crit1` for thread 2 holding the mutex first. -/
theorem crit2 (sched : List Bool) (xs pre : List Event) (rest1 : List Action)
    (s2 : TwoThreads)
    (h : runSched sched
      ⟨Action.acquire :: rest1, xs.map Action.act ++ [Action.release], some false, pre⟩
      = some s2)
    (h2 : s2.rem2 = []) :
    ∃ ws, runSched ws ⟨Action.acquire :: rest1, [], none, pre ++ xs⟩ = some s2 := by
  induction sched generalizing xs pre with
  | nil =>
    simp [runSched] at h
    rw [← h] at h2
    simp at h2
  | cons w ws ih =>
    cases w with
    | true => simp [runSched, step] at h
    | false =>
      cases xs with
      | nil =>
        refine ⟨ws, ?_⟩
        simpa [runSched, step, setRem] using h
      | cons x xt =>
        simp only [runSched, step, setRem, List.map_cons, List.cons_append,
          reduceIte] at h
        have h3 := ih xt (pre ++ [x]) h
        simpa [List.append_assoc] using h3

theorem crit1solo (sched : List Bool) (xs pre : List Event) (s2 : TwoThreads)
    (h : runSched sched ⟨xs.map Action.act ++ [Action.release], [], some true, pre⟩
      = some s2)
    (h1 : s2.rem1 = []) : s2.trace = pre ++ xs := by
  induction sched generalizing xs pre with
  | nil =>
    simp [runSched] at h
    rw [← h] at h1
    simp at h1
  | cons w ws ih =>
    cases w with
    | false => simp [runSched, step] at h
    | true =>
      cases xs with
      | nil =>
        simp only [runSched, step, setRem, List.map_nil, List.nil_append,
          if_true, reduceIte] at h
        have h3 := runSched_done ws none pre s2 h
        rw [h3]
        simp
      | cons x xt =>
        simp only [runSched, step, setRem, List.map_cons, List.cons_append,
          if_true, reduceIte] at h
        have h3 := ih xt (pre ++ [x]) h
        simpa [List.append_assoc] using h3

theorem solo1 (sched : List Bool) (a pre : List Event) (s2 : TwoThreads)
    (h : runSched sched ⟨lockBlock a, [], none, pre⟩ = some s2)
    (h1 : s2.rem1 = []) : s2.trace = pre ++ a := by
  cases sched with
  | nil =>
    simp [runSched] at h
    rw [← h] at h1
    simp [lockBlock] at h1
  | cons w ws =>
    cases w with
    | false => simp [runSched, step] at h
    | true =>
      simp only [runSched, step, setRem, lockBlock, if_true, reduceIte] at h
      exact crit1solo ws a pre s2 h h1

/-- Mutex serialization: any complete interleaving of two critical-section
scripts produces one command block entirely before the other. -/
theorem lock_serializes (a b : List Event) (sched : List Bool) (s2 : TwoThreads)
    (h : runSched sched ⟨lockBlock a, lockBlock b, none, []⟩ = some s2)
    (h1 : s2.rem1 = []) (h2 : s2.rem2 = []) :
    s2.trace = a ++ b ∨ s2.trace = b ++ a := by
  cases sched with
  | nil =>
    simp [runSched] at h
    rw [← h] at h1
    simp [lockBlock] at h1
  | cons w ws =>
    cases w with
    | true =>
      simp only [runSched, step, setRem, lockBlock, if_true, reduceIte] at h
      obtain ⟨ws2, hws2⟩ := crit1 ws a [] _ s2 h h1
      left
      have h3 := solo2 ws2 b a s2 (by simpa using hws2) h2
      simpa using h3
    | false =>
      simp only [runSched, step, setRem, lockBlock, reduceIte] at h
      obtain ⟨ws2, hws2⟩ := crit2 ws b [] _ s2 h h2
      right
      have h3 := solo1 ws2 a b s2 (by simpa using hws2) h1
      simpa using h3

/-! ### Shared helper lemmas -/

theorem clampQ_bounds (v lo hi : ℚ) (h : lo ≤ hi) :
    lo ≤ clampQ v lo hi ∧ clampQ v lo hi ≤ hi := by
  unfold clampQ
  split_ifs with h1 h2
  · exact ⟨le_refl lo, h⟩
  · exact ⟨h, le_refl hi⟩
  · exact ⟨le_of_not_lt h1, le_of_not_lt h2⟩

theorem clampI_bounds (v lo hi : ℤ) (h : lo ≤ hi) :
    lo ≤ clampI v lo hi ∧ clampI v lo hi ≤ hi := by
  unfold clampI
  split_ifs with h1 h2
  · exact ⟨le_refl lo, h⟩
  · exact ⟨h, le_refl hi⟩
  · exact ⟨le_of_not_lt h1, le_of_not_lt h2⟩

theorem clampI_of_mem (v lo hi : ℤ) (h1 : lo ≤ v) (h2 : v ≤ hi) :
    clampI v lo hi = v := by
  unfold clampI
  split_ifs with g1 g2
  · omega
  · omega
  · rfl

theorem clamp_zoom_idem (v : ℤ) : clamp_zoom (clamp_zoom v) = clamp_zoom v := by
  have h := clampI_bounds v ZOOM_MIN ZOOM_MAX (by norm_num [ZOOM_MIN, ZOOM_MAX])
  exact clampI_of_mem _ _ _ h.1 h.2

theorem update_zoom_clamped (p : PositionTracker) (v : ℤ) :
    p.update_zoom (clamp_zoom v) = { p with zoom := clamp_zoom v } := by
  unfold PositionTracker.update_zoom
  rw [show clampI (clamp_zoom v) ZOOM_MIN ZOOM_MAX = clamp_zoom (clamp_zoom v) from rfl,
    clamp_zoom_idem]

/-! ### C1 -/

/-- C1 (counterexample): the claimed invariant "after any mutating
operation the pan lies in `[pan_min, pan_max]`" fails on `reset` for a
tracker whose pan interval `[2, 5]` does not contain 0: `reset` sets
`pan = 0 < pan_min`. -/
theorem C1_counterexample :
    ¬ ((({ pan := 3, pan_min := 2, pan_max := 5 } : PositionTracker).reset).pan_min ≤
        (({ pan := 3, pan_min := 2, pan_max := 5 } : PositionTracker).reset).pan) := by
  with_unfolding_all decide

/-- C1 (amended): `update_pan`/`update_tilt` clamp their own field into its
interval whenever that interval is well-formed (`min ≤ max`), leaving the
other fields and the bounds unchanged; `update_zoom` always lands in
`[ZOOM_MIN, ZOOM_MAX] = [100, 500]`; `reset` sets exactly
`(0, 0, ZOOM_DEFAULT)` (so its zoom is in range, while its pan/tilt lie
within the configured bounds only when those intervals contain 0).
Out-of-range inputs are clamped, never rejected (the operations are total). -/
theorem C1_clamping (p : PositionTracker) (speed : ℤ) (duration : ℚ) (value : ℤ)
    (hpan : p.pan_min ≤ p.pan_max) (htilt : p.tilt_min ≤ p.tilt_max) :
    (p.pan_min ≤ (p.update_pan speed duration).pan ∧
      (p.update_pan speed duration).pan ≤ p.pan_max ∧
      (p.update_pan speed duration).tilt = p.tilt ∧
      (p.update_pan speed duration).zoom = p.zoom) ∧
    (p.tilt_min ≤ (p.update_tilt speed duration).tilt ∧
      (p.update_tilt speed duration).tilt ≤ p.tilt_max ∧
      (p.update_tilt speed duration).pan = p.pan ∧
      (p.update_tilt speed duration).zoom = p.zoom) ∧
    (ZOOM_MIN ≤ (p.update_zoom value).zoom ∧ (p.update_zoom value).zoom ≤ ZOOM_MAX ∧
      (p.update_zoom value).pan = p.pan ∧ (p.update_zoom value).tilt = p.tilt) ∧
    (p.reset.pan = 0 ∧ p.reset.tilt = 0 ∧ p.reset.zoom = ZOOM_DEFAULT ∧
      ZOOM_MIN ≤ p.reset.zoom ∧ p.reset.zoom ≤ ZOOM_MAX) ∧
    ((p.update_pan speed duration).pan_min = p.pan_min ∧
      (p.update_pan speed duration).pan_max = p.pan_max ∧
      (p.update_tilt speed duration).tilt_min = p.tilt_min ∧
      (p.update_tilt speed duration).tilt_max = p.tilt_max) := by
  have h1 := clampQ_bounds (p.pan + speed * duration) p.pan_min p.pan_max hpan
  have h2 := clampQ_bounds (p.tilt + speed * duration) p.tilt_min p.tilt_max htilt
  have h3 := clampI_bounds value ZOOM_MIN ZOOM_MAX (by norm_num [ZOOM_MIN, ZOOM_MAX])
  refine ⟨⟨h1.1, h1.2, rfl, rfl⟩, ⟨h2.1, h2.2, rfl, rfl⟩, ⟨h3.1, h3.2, rfl, rfl⟩,
    ⟨rfl, rfl, rfl, ?_, ?_⟩, rfl, rfl, rfl, rfl⟩ <;>
    norm_num [PositionTracker.reset, ZOOM_MIN, ZOOM_MAX, ZOOM_DEFAULT]

/-- C1 witness: the amended statement instantiated at the default tracker
(with its well-formed default bounds) and an out-of-range zoom input. -/
theorem C1_clamping_witness :
    (({} : PositionTracker).pan_min ≤ ({} : PositionTracker).pan_max) ∧
    (({} : PositionTracker).tilt_min ≤ ({} : PositionTracker).tilt_max) ∧
    (ZOOM_MIN ≤ (({} : PositionTracker).update_zoom 9999).zoom ∧
      (({} : PositionTracker).update_zoom 9999).zoom ≤ ZOOM_MAX) :=
  ⟨by with_unfolding_all decide, by with_unfolding_all decide,
    ((C1_clamping {} 1 1 9999 (by with_unfolding_all decide)
      (by with_unfolding_all decide)).2.2.1.1),
    ((C1_clamping {} 1 1 9999 (by with_unfolding_all decide)
      (by with_unfolding_all decide)).2.2.1.2.1)⟩

/-! ### C2 -/

/-- C2: `MotionController::pan(direction, duration)` on a healthy device
performs exactly: clamp the direction with `clamp_speed` (to
`[PAN_SPEED_MIN, PAN_SPEED_MAX] = [-1, 1]`), issue
`set_control(CTRL_PAN_SPEED, speed)`, wait `duration`, issue
`set_control(CTRL_PAN_SPEED, 0)`, and only then update the estimator with
the clamped speed.  The trace records the `PAN_SPEED = speed` command
strictly before the `PAN_SPEED = 0` command, and the estimator update is
applied to the state that already contains both device commands. -/
theorem C2_pan_sequence (direction : ℤ) (duration : ℚ) (s : MCState) :
    MotionController.pan okDev direction duration s =
      Except.ok
        { trace := s.trace ++
              [Event.set CtrlId.panSpeed (clamp_speed direction), Event.wait duration,
                Event.set CtrlId.panSpeed 0],
          pos := s.pos.update_pan (clamp_speed direction) duration } ∧
    clamp_speed direction = clampI direction (-1) 1 := by
  constructor
  · simp [MotionController.pan, set_control, sleep_for, okDev, Bind.bind, Except.bind]
  · rfl

/-! ### C5 -/

/-- C5: `zoom_relative(delta)` on a healthy device computes
`new = clamp(zoom + delta, ZOOM_MIN, ZOOM_MAX)`, issues the single command
`ZOOM_ABSOLUTE = new` (no wait event), and stores exactly `new` in the
estimator zoom, leaving pan and tilt untouched; in particular from
`zoom = 480`, `delta = 100` commands and stores 500, not 580. -/
theorem C5_zoom_relative (delta : ℤ) (s : MCState) :
    MotionController.zoom_relative okDev delta s =
      Except.ok
        { trace := s.trace ++
              [Event.set CtrlId.zoomAbsolute (clamp_zoom (s.pos.zoom + delta))],
          pos := { s.pos with zoom := clamp_zoom (s.pos.zoom + delta) } } ∧
    clamp_zoom (480 + 100) = 500 := by
  constructor
  · simp [MotionController.zoom_relative, set_control, okDev, Bind.bind, Except.bind,
      update_zoom_clamped]
  · with_unfolding_all decide

/-! ### C6 -/

/-- C6: `Controller::reset_position()` on a healthy device performs, in
order, the four separate nudges `pan(+1, 0.1)`, `pan(-1, 0.1)`,
`tilt(+1, 0.1)`, `tilt(-1, 0.1)` (each a full start-wait-stop command
sequence), then `zoom_absolute(ZOOM_MIN)`, and finally resets the
estimator: whatever the prior estimator state, the final estimator fields
are exactly `pan = 0`, `tilt = 0`, `zoom = ZOOM_DEFAULT = ZOOM_MIN = 100`
(the nudges' intermediate bookkeeping is discarded by the final reset). -/
theorem C6_reset_position (s : MCState) :
    Controller.reset_position okDev s =
      Except.ok
        { trace := s.trace ++
              [Event.set CtrlId.panSpeed 1, Event.wait (1/10), Event.set CtrlId.panSpeed 0,
                Event.set CtrlId.panSpeed (-1), Event.wait (1/10), Event.set CtrlId.panSpeed 0,
                Event.set CtrlId.tiltSpeed 1, Event.wait (1/10), Event.set CtrlId.tiltSpeed 0,
                Event.set CtrlId.tiltSpeed (-1), Event.wait (1/10), Event.set CtrlId.tiltSpeed 0,
                Event.set CtrlId.zoomAbsolute 100],
          pos := { s.pos with pan := 0, tilt := 0, zoom := 100 } } := by
  have hc1 : clamp_speed 1 = 1 := by with_unfolding_all decide
  have hcm : clamp_speed (-1) = -1 := by with_unfolding_all decide
  have hcz : clamp_zoom 100 = 100 := by with_unfolding_all decide
  simp [Controller.reset_position, MotionController.pan, MotionController.tilt,
    MotionController.zoom_absolute, set_control, sleep_for, okDev, Bind.bind,
    Except.bind, hc1, hcm, hcz, PositionTracker.update_pan, PositionTracker.update_tilt,
    PositionTracker.update_zoom, PositionTracker.reset, ZOOM_DEFAULT, ZOOM_MIN]

theorem steps_measure_le {st cs m st2 cs2 m2} (h : Steps st cs m st2 cs2 m2) :
    fjMeasure st2 cs2 ≤ fjMeasure st cs := by
  induction h with
  | refl => exact le_refl _
  | head hstep _ ih => exact le_trans ih (le_of_lt (fjStep_measure _ _ _ _ _ _ hstep))

/-- Running with fuel above the measure computes the loop's result along
any `Steps` chain that ends in a terminal step. -/
theorem fjRun_of_steps {st cs m st2 cs2 m2} (h : Steps st cs m st2 cs2 m2)
    (r : ParseResult) (hdone : fjStep st2 cs2 m2 = StepRes.done r) :
    ∀ fuel, fjMeasure st cs < fuel → fjRun fuel st cs m = r := by
  induction h with
  | refl st cs m =>
    intro fuel hf
    cases fuel with
    | zero => omega
    | succ f => simp [fjRun, hdone]
  | head hstep hrest ih =>
    intro fuel hf
    cases fuel with
    | zero => omega
    | succ f =>
      have hm := fjStep_measure _ _ _ _ _ _ hstep
      simp only [fjRun, hstep]
      exact ih hdone f (by omega)

/-! ### C7 -/

/-- C7: for every `MotionController` operation and every device behavior,
if a device command fails, the error propagates (the operation's result is
that error) and the estimator is untouched: the error state carries
exactly the caller's estimator.  `stop()` never updates the estimator,
whether it succeeds or fails. -/
theorem C7_error_atomicity (dev : Device) (s e : MCState) (d t z delta v : ℤ)
    (dur : ℚ) :
    (MotionController.pan dev d dur s = Except.error e → e.pos = s.pos) ∧
    (MotionController.tilt dev d dur s = Except.error e → e.pos = s.pos) ∧
    (MotionController.combined_move dev d t dur s = Except.error e → e.pos = s.pos) ∧
    (MotionController.combined_move_with_zoom dev d t z dur s = Except.error e →
      e.pos = s.pos) ∧
    (MotionController.zoom_absolute dev v s = Except.error e → e.pos = s.pos) ∧
    (MotionController.zoom_relative dev delta s = Except.error e → e.pos = s.pos) ∧
    (exceptState (MotionController.stop dev s)).pos = s.pos := by
  refine ⟨?_, ?_, ?_, ?_, ?_, ?_, ?_⟩ <;>
    [skip; skip; skip; skip; skip; skip;
      (unfold MotionController.stop set_control
       simp only [Bind.bind, Except.bind]
       repeat' split
       all_goals (try split_ifs at *)
       all_goals aesop)] <;>
  · intro h
    simp only [MotionController.pan, MotionController.tilt,
      MotionController.combined_move, MotionController.combined_move_with_zoom,
      MotionController.zoom_absolute, MotionController.zoom_relative, set_control,
      sleep_for, Bind.bind, Except.bind] at h
    repeat' split at h
    all_goals (try injection h with h3)
    all_goals subst_vars
    all_goals (try split_ifs at *)
    all_goals aesop

/-- C7 witness: on the always-failing device, `pan` fails after recording
the first command only, and the error state's estimator equals the
caller's. -/
theorem C7_witness :
    MotionController.pan failDev 1 1 ({} : MCState) =
      Except.error { trace := [Event.set CtrlId.panSpeed 1], pos := {} } ∧
    ({ trace := [Event.set CtrlId.panSpeed 1], pos := ({} : PositionTracker) } :
        MCState).pos = ({} : MCState).pos :=
  ⟨by simp [MotionController.pan, set_control, failDev, clamp_speed, clampI,
      PAN_SPEED_MIN, PAN_SPEED_MAX, Bind.bind, Except.bind],
    (C7_error_atomicity failDev {} { trace := [Event.set CtrlId.panSpeed 1], pos := {} }
      1 1 1 1 1 1).1
      (by simp [MotionController.pan, set_control, failDev, clamp_speed, clampI,
        PAN_SPEED_MIN, PAN_SPEED_MAX, Bind.bind, Except.bind])⟩

/-! ### C8 -/

/-- C8: each public `MotionController` operation is one `lock_guard`
critical section around its device commands (including the blocking wait),
so for any two operations run by two threads on one controller, every
complete mutex-respecting interleaving yields a device trace in which one
operation's full command sequence precedes the other's — the commands
never interleave. -/
theorem C8_serialization (o1 o2 : OpCall) (p1 p2 : PositionTracker)
    (sched : List Bool) (s2 : TwoThreads)
    (h : runSched sched
      { rem1 := lockBlock (opCmds o1 p1), rem2 := lockBlock (opCmds o2 p2),
        owner := none, trace := [] } = some s2)
    (h1 : s2.rem1 = []) (h2 : s2.rem2 = []) :
    s2.trace = opCmds o1 p1 ++ opCmds o2 p2 ∨
      s2.trace = opCmds o2 p2 ++ opCmds o1 p1 :=
  lock_serializes _ _ sched s2 h h1 h2

/-- C8 witness: a concrete complete schedule of `pan(1, 1)` against
`stop()` produces the non-interleaved trace. -/
theorem C8_witness :
    ({ rem1 := [], rem2 := [], owner := none,
        trace := [Event.set CtrlId.panSpeed 1, Event.wait 1, Event.set CtrlId.panSpeed 0,
          Event.set CtrlId.panSpeed 0, Event.set CtrlId.tiltSpeed 0] } : TwoThreads).trace =
      opCmds (OpCall.pan 1 1) {} ++ opCmds OpCall.stop {} ∨
    ({ rem1 := [], rem2 := [], owner := none,
        trace := [Event.set CtrlId.panSpeed 1, Event.wait 1, Event.set CtrlId.panSpeed 0,
          Event.set CtrlId.panSpeed 0, Event.set CtrlId.tiltSpeed 0] } : TwoThreads).trace =
      opCmds OpCall.stop {} ++ opCmds (OpCall.pan 1 1) {} :=
  C8_serialization (OpCall.pan 1 1) OpCall.stop {} {}
    [true, true, true, true, true, false, false, false, false]
    { rem1 := [], rem2 := [], owner := none,
      trace := [Event.set CtrlId.panSpeed 1, Event.wait 1, Event.set CtrlId.panSpeed 0,
        Event.set CtrlId.panSpeed 0, Event.set CtrlId.tiltSpeed 0] }
    (by with_unfolding_all decide) rfl rfl

/-! ### C9 -/

/-- C9: `from_json` clears the map first and inserts each preset as soon
as its inner object closes, so when a parse error is thrown partway
through, the mapping holds exactly the presets completed before the
failure point — independent of the pre-load contents `prior`, and not the
full file's contents (the input below also defines `"b"`, which is absent
from the result). -/
theorem C9_partial_on_error (prior : List (String × PositionTracker)) :
    from_json prior "\x7b\"a\":\x7b\"pan\":1,\"tilt\":2,\"zoom\":300\x7d,\"b\":\x7b\"pan\":x\x7d\x7d".data =
      ParseResult.err [("a", { pan := 1, tilt := 2, zoom := 300 })] := by
  have h : from_json [] "\x7b\"a\":\x7b\"pan\":1,\"tilt\":2,\"zoom\":300\x7d,\"b\":\x7b\"pan\":x\x7d\x7d".data =
      ParseResult.err [("a", { pan := 1, tilt := 2, zoom := 300 })] := by
    with_unfolding_all decide
  exact h

/-! ### C4 -/

/-- C4 (counterexample): the claim that every deviation from the exact
two-level shape — explicitly including an unknown field name — is a hard
parse error is false: `{"home": {"wat": 1}}` parses successfully, the
unknown field is silently ignored, and the preset gets the default field
values `(0, 0, ZOOM_DEFAULT)`. -/
theorem C4_counterexample :
    from_json [] "\x7b\"home\": \x7b\"wat\": 1\x7d\x7d".data =
      ParseResult.ok [("home", { pan := 0, tilt := 0, zoom := 100 })] := by
  with_unfolding_all decide

/-- C4 (amended): a missing backing store is not an error and yields an
empty mapping, and some malformed inputs do fail hard (any input whose
first non-whitespace character is not `'{'` raises a parse error that
propagates), but the parser is not strict: an unknown field name is
silently ignored (the preset keeps default values), input that ends
mid-preset returns successfully with the incomplete preset dropped, and
input with a non-`':'` where a colon is expected makes the parse loop run
forever instead of raising an error. -/
theorem C4_parse_behaviors :
    presetManagerInit none = ParseResult.ok [] ∧
    (∀ (prior : List (String × PositionTracker)) (c : Char) (rest : List Char),
      isWs c = false → ¬ c = '\x7b' →
        from_json prior (c :: rest) = ParseResult.err []) ∧
    from_json [] "\x7b\"home\": \x7b\"wat\": 1\x7d\x7d".data =
      ParseResult.ok [("home", { pan := 0, tilt := 0, zoom := 100 })] ∧
    from_json [] "\x7b\"a\": \x7b\"pan\": 1".data = ParseResult.ok [] ∧
    from_json [] "\x7b\"a\" x".data = ParseResult.hang := by
  refine ⟨rfl, ?_, by with_unfolding_all decide, by with_unfolding_all decide,
    by with_unfolding_all decide⟩
  intro prior c rest hws hc
  unfold from_json
  refine fjRun_of_steps (Steps.refl _ _ _) _ ?_ _ ?_
  · simp [fjStep, List.dropWhile_cons, hws, hc]
  · simp [fjMeasure]

/-- C4 witness: the amended statement's universally quantified error case
instantiated at the one-character input `"x"`. -/
theorem C4_witness :
    isWs 'x' = false ∧ ¬ 'x' = '\x7b' ∧
    from_json [] ['x'] = ParseResult.err [] :=
  ⟨by with_unfolding_all decide, by with_unfolding_all decide,
    C4_parse_behaviors.2.1 [] 'x' [] (by with_unfolding_all decide)
      (by with_unfolding_all decide)⟩

/-! ### C10 -/

/-- C10: `Controller::recall_preset(name)` restores only the zoom
component: when the name is absent it returns `false` and issues no device
command (the state is untouched); when the name maps to preset `p` it
issues exactly the single command `ZOOM_ABSOLUTE = clamp(p.zoom)`, writes
only the estimator's zoom (pan and tilt of the estimator and of the
preset are not touched or copied), and returns `true`. -/
theorem C10_recall_zoom_only (presets : List (String × PositionTracker))
    (name : String) (s : MCState) :
    (mapFind name presets = none →
      Controller.recall_preset okDev presets name s = Except.ok (false, s)) ∧
    (∀ p, mapFind name presets = some p →
      Controller.recall_preset okDev presets name s =
        Except.ok (true,
          { trace := s.trace ++ [Event.set CtrlId.zoomAbsolute (clamp_zoom p.zoom)],
            pos := { s.pos with zoom := clamp_zoom p.zoom } })) := by
  constructor
  · intro h
    simp [Controller.recall_preset, h]
  · intro p h
    simp [Controller.recall_preset, h, MotionController.zoom_absolute, set_control,
      okDev, Bind.bind, Except.bind, update_zoom_clamped]

/-- C10 witness: a present and an absent name on a one-entry store. -/
theorem C10_witness :
    Controller.recall_preset okDev [("home", { pan := 5/2, tilt := -1, zoom := 350 })]
        "home" ({} : MCState) =
      Except.ok (true,
        { trace := [Event.set CtrlId.zoomAbsolute 350],
          pos := { ({} : PositionTracker) with zoom := 350 } }) ∧
    Controller.recall_preset okDev [("home", { pan := 5/2, tilt := -1, zoom := 350 })]
        "away" ({} : MCState) = Except.ok (false, {}) := by
  constructor
  · have h := (C10_recall_zoom_only [("home", { pan := 5/2, tilt := -1, zoom := 350 })]
      "home" {}).2 ({ pan := 5/2, tilt := -1, zoom := 350 }) (by with_unfolding_all decide)
    rw [h]
    norm_num [clamp_zoom, clampI, ZOOM_MIN, ZOOM_MAX]
  · exact (C10_recall_zoom_only [("home", { pan := 5/2, tilt := -1, zoom := 350 })]
      "away" {}).1 (by with_unfolding_all decide)

/-! ### C3 support -/

theorem takeWhile_all_append (p : Char → Bool) (xs : List Char) (y : Char) (ys : List Char)
    (hall : xs.all p = true) (hy : p y = false) :
    (xs ++ y :: ys).takeWhile p = xs ∧ (xs ++ y :: ys).dropWhile p = y :: ys := by
  induction xs with
  | nil => simp [List.takeWhile_cons, List.dropWhile_cons, hy]
  | cons a t ih =>
    simp only [List.all_cons, Bool.and_eq_true] at hall
    simp [List.takeWhile_cons, List.dropWhile_cons, hall.1, ih hall.2]

theorem rqsBody_clean (xs rest : List Char)
    (h : ∀ c ∈ xs, ¬ c = '"' ∧ ¬ c = '\\') :
    rqsBody (xs ++ '"' :: rest) = (xs, '"' :: rest) := by
  induction xs with
  | nil => simp [rqsBody]
  | cons a t ih =>
    have ha := h a (by simp)
    have ht : ∀ c ∈ t, ¬ c = '"' ∧ ¬ c = '\\' := fun c hc => h c (by simp [hc])
    rw [List.cons_append]
    simp [rqsBody, ha.1, ha.2, ih ht]

theorem rqs_clean (xs rest : List Char)
    (h : ∀ c ∈ xs, ¬ c = '"' ∧ ¬ c = '\\') :
    rqs (xs ++ '"' :: rest) = (⟨xs⟩, rest) := by
  simp [rqs, rqsBody_clean xs rest h, skipQuote]

theorem isWs_false_of_isNumChar {c : Char} (h : isNumChar c = true) : isWs c = false := by
  by_contra hws
  simp only [Bool.not_eq_false] at hws
  unfold isWs at hws
  simp only [Bool.or_eq_true, beq_iff_eq] at hws
  rcases hws with ((rfl | rfl) | rfl) | rfl <;> exact absurd h (by decide)

theorem truncQ_intCast (z : ℤ) : truncQ (z : ℚ) = z := by
  unfold truncQ
  split_ifs with h
  · rw [← Int.cast_neg, Int.floor_intCast]
    omega
  · exact Int.floor_intCast z

theorem fjStep_root (rest : List Char) (m : PMachine) :
    fjStep PState.ROOT ('\x7b' :: rest) m = StepRes.cont PState.PRESET_KEY rest m := by
  simp [fjStep, List.dropWhile_cons, isWs]

theorem fjStep_presetkey (N rest : List Char) (m : PMachine)
    (h : ∀ c ∈ N, ¬ c = '"' ∧ ¬ c = '\\') :
    fjStep PState.PRESET_KEY ('\n' :: ' ' :: ' ' :: '"' :: (N ++ '"' :: rest)) m =
      StepRes.cont PState.COLON_1 rest { m with cur_preset := ⟨N⟩ } := by
  simp [fjStep, List.dropWhile_cons, isWs, rqs_clean N rest h]

theorem fjStep_colon1 (rest : List Char) (m : PMachine) :
    fjStep PState.COLON_1 (':' :: rest) m = StepRes.cont PState.INNER_OPEN rest m := by
  simp [fjStep, List.dropWhile_cons, isWs]

theorem fjStep_colon2 (rest : List Char) (m : PMachine) :
    fjStep PState.COLON_2 (':' :: rest) m = StepRes.cont PState.FIELD_VALUE rest m := by
  simp [fjStep, List.dropWhile_cons, isWs]

theorem fjStep_inner (rest : List Char) (m : PMachine) :
    fjStep PState.INNER_OPEN (' ' :: '\x7b' :: rest) m =
      StepRes.cont PState.FIELD_KEY rest
        { m with pan_val := 0, tilt_val := 0, zoom_val := ZOOM_DEFAULT } := by
  simp [fjStep, List.dropWhile_cons, isWs]

theorem fjStep_key_pan (rest : List Char) (m : PMachine) :
    fjStep PState.FIELD_KEY
        ('\n' :: ' ' :: ' ' :: ' ' :: ' ' :: '"' :: 'p' :: 'a' :: 'n' :: '"' :: rest) m =
      StepRes.cont PState.COLON_2 rest { m with cur_field := ⟨['p', 'a', 'n']⟩ } := by
  simp [fjStep, List.dropWhile_cons, isWs, rqs, rqsBody, skipQuote]

theorem fjStep_key_tilt (rest : List Char) (m : PMachine) :
    fjStep PState.FIELD_KEY
        ('\n' :: ' ' :: ' ' :: ' ' :: ' ' :: '"' :: 't' :: 'i' :: 'l' :: 't' :: '"' :: rest) m =
      StepRes.cont PState.COLON_2 rest { m with cur_field := ⟨['t', 'i', 'l', 't']⟩ } := by
  simp [fjStep, List.dropWhile_cons, isWs, rqs, rqsBody, skipQuote]

theorem fjStep_key_zoom (rest : List Char) (m : PMachine) :
    fjStep PState.FIELD_KEY
        ('\n' :: ' ' :: ' ' :: ' ' :: ' ' :: '"' :: 'z' :: 'o' :: 'o' :: 'm' :: '"' :: rest) m =
      StepRes.cont PState.COLON_2 rest { m with cur_field := ⟨['z', 'o', 'o', 'm']⟩ } := by
  simp [fjStep, List.dropWhile_cons, isWs, rqs, rqsBody, skipQuote]

theorem fjStep_value (V : List Char) (v : ℚ) (sep : Char) (rest : List Char) (m : PMachine)
    (hall : V.all isNumChar = true) (hv : stod V = Except.ok v)
    (hsep : isNumChar sep = false) :
    fjStep PState.FIELD_VALUE (' ' :: (V ++ sep :: rest)) m =
      StepRes.cont PState.FIELD_SEP (sep :: rest) (applyField m v) := by
  have hne := stod_ok_ne_nil V v hv
  rcases V with _ | ⟨v0, V2⟩
  · exact absurd rfl hne
  · have hnum : isNumChar v0 = true := by
      simp only [List.all_cons, Bool.and_eq_true] at hall
      exact hall.1
    have hws0 : isWs v0 = false := isWs_false_of_isNumChar hnum
    have htk := takeWhile_all_append isNumChar (v0 :: V2) sep rest hall hsep
    have hsp : isWs ' ' = true := rfl
    have e1 : List.dropWhile isWs (' ' :: v0 :: (V2 ++ sep :: rest)) =
        v0 :: (V2 ++ sep :: rest) := by
      simp [List.dropWhile_cons, hsp, hws0]
    have e2 : (v0 :: (V2 ++ sep :: rest)).takeWhile isNumChar = v0 :: V2 := by
      rw [← List.cons_append]
      exact htk.1
    have e3 : (v0 :: (V2 ++ sep :: rest)).dropWhile isNumChar = sep :: rest := by
      rw [← List.cons_append]
      exact htk.2
    simp [fjStep, e1, e2, e3, hv]

theorem fjStep_fieldsep_comma (rest : List Char) (m : PMachine) :
    fjStep PState.FIELD_SEP (',' :: rest) m = StepRes.cont PState.FIELD_KEY rest m := by
  simp [fjStep, List.dropWhile_cons, isWs]

theorem fjStep_fieldsep_close (rest : List Char) (m : PMachine) :
    fjStep PState.FIELD_SEP ('\n' :: ' ' :: ' ' :: '\x7d' :: rest) m =
      StepRes.cont PState.FIELD_KEY ('\x7d' :: rest) m := by
  simp [fjStep, List.dropWhile_cons, isWs]

theorem fjStep_key_close (rest : List Char) (m : PMachine) :
    fjStep PState.FIELD_KEY ('\x7d' :: rest) m =
      StepRes.cont PState.PRESET_SEP rest
        { m with acc := mapInsert m.cur_preset (PositionTracker.mk m.pan_val m.tilt_val m.zoom_val EST_PAN_MIN EST_PAN_MAX EST_TILT_MIN EST_TILT_MAX) m.acc } := by
  simp [fjStep, List.dropWhile_cons, isWs]

theorem fjStep_presetsep_done (m : PMachine) :
    fjStep PState.PRESET_SEP ('\n' :: '\x7d' :: '\n' :: []) m =
      StepRes.done (ParseResult.ok m.acc) := by
  simp [fjStep, List.dropWhile_cons, isWs]

theorem save_data_shape (name : String) (pos : PositionTracker) :
    (save_preset [] name pos).2.data =
      '\x7b' :: '\n' :: ' ' :: ' ' :: '"' :: (name.data ++
        ('"' :: ':' :: ' ' :: '\x7b' :: '\n' :: ' ' :: ' ' :: ' ' :: ' ' :: '"' ::
          'p' :: 'a' :: 'n' :: '"' :: ':' :: ' ' :: ((fmtDouble pos.pan).data ++
          (',' :: '\n' :: ' ' :: ' ' :: ' ' :: ' ' :: '"' ::
            't' :: 'i' :: 'l' :: 't' :: '"' :: ':' :: ' ' :: ((fmtDouble pos.tilt).data ++
            (',' :: '\n' :: ' ' :: ' ' :: ' ' :: ' ' :: '"' ::
              'z' :: 'o' :: 'o' :: 'm' :: '"' :: ':' :: ' ' :: ((intStr pos.zoom).data ++
              ('\n' :: ' ' :: ' ' :: '\x7d' :: '\n' :: '\x7d' :: '\n' :: []))))))))  := by
  simp [save_preset, mapInsert, to_json, toJsonBody, fmtPreset, String.data_append]

set_option maxRecDepth 2048 in
/-- C3 (counterexample): exact round-trip for every name and position is
false.  `to_json` writes preset names without escaping, and
`read_quoted_string` treats a backslash as an escape, so saving the name
`a\b` with `(2.5, -1.0, 350)` produces a file whose fresh parse stores the
preset under the mangled name `ab`; recalling `a\b` from the fresh
instance yields nothing rather than the saved triple. -/
theorem C3_counterexample :
    presetManagerInit (some (save_preset [] "a\\b" ({ pan := 5/2, tilt := -1, zoom := 350 })).2) =
      ParseResult.ok [("ab", { pan := 5/2, tilt := -1, zoom := 350 })] ∧
    recall_preset [("ab", { pan := 5/2, tilt := -1, zoom := 350 })] "a\\b" = none := by
  constructor <;> with_unfolding_all decide

/-- C3 (amended): preset persistence round-trips exactly for every preset
name containing no `'"'` or `'\'` character and every position whose pan
and tilt reformat exactly (printing with the stream's 6-significant-digit
default and reparsing with `stod` gives the value back — true for example
for 2.5 and -1.0, false for doubles needing more digits) and whose zoom's
decimal rendering reparses to itself: saving on a store backed by path `P`
and constructing a fresh store on `P` parses back exactly the one preset,
and `recall_preset` returns exactly the saved `(pan, tilt, zoom)`. -/
theorem C3_round_trip (name : String) (pos : PositionTracker)
    (hname : ∀ c ∈ name.data, ¬ c = '"' ∧ ¬ c = '\\')
    (hpanA : (fmtDouble pos.pan).data.all isNumChar = true)
    (hpan : stod (fmtDouble pos.pan).data = Except.ok pos.pan)
    (htiltA : (fmtDouble pos.tilt).data.all isNumChar = true)
    (htilt : stod (fmtDouble pos.tilt).data = Except.ok pos.tilt)
    (hzoomA : (intStr pos.zoom).data.all isNumChar = true)
    (hzoom : stod (intStr pos.zoom).data = Except.ok (pos.zoom : ℚ)) :
    from_json [] (save_preset [] name pos).2.data =
      ParseResult.ok [(name, { pan := pos.pan, tilt := pos.tilt, zoom := pos.zoom })] ∧
    recall_preset [(name, { pan := pos.pan, tilt := pos.tilt, zoom := pos.zoom })] name =
      some { pan := pos.pan, tilt := pos.tilt, zoom := pos.zoom } := by
  constructor
  · rw [save_data_shape]
    unfold from_json
    apply fjRun_of_steps
    · exact Steps.head (fjStep_root _ _)
        (Steps.head (fjStep_presetkey name.data _ _ hname)
        (Steps.head (fjStep_colon1 _ _)
        (Steps.head (fjStep_inner _ _)
        (Steps.head (fjStep_key_pan _ _)
        (Steps.head (fjStep_colon2 _ _)
        (Steps.head (fjStep_value _ pos.pan ',' _ _ hpanA hpan (by decide))
        (Steps.head (fjStep_fieldsep_comma _ _)
        (Steps.head (fjStep_key_tilt _ _)
        (Steps.head (fjStep_colon2 _ _)
        (Steps.head (fjStep_value _ pos.tilt ',' _ _ htiltA htilt (by decide))
        (Steps.head (fjStep_fieldsep_comma _ _)
        (Steps.head (fjStep_key_zoom _ _)
        (Steps.head (fjStep_colon2 _ _)
        (Steps.head (fjStep_value _ (pos.zoom : ℚ) '\n' _ _ hzoomA hzoom (by decide))
        (Steps.head (fjStep_fieldsep_close _ _)
        (Steps.head (fjStep_key_close _ _)
        (Steps.refl _ _ _)))))))))))))))))
    · rw [fjStep_presetsep_done]
      simp [applyField, mapInsert, truncQ_intCast]
    · simp [fjMeasure]
  · simp [recall_preset, mapFind]

set_option maxRecDepth 2048 in
/-- C3 witness: the amended round-trip at the spec's own instance —
`"home"` with `(2.5, -1.0, 350)`. -/
theorem C3_witness :
    from_json [] (save_preset [] "home" ({ pan := 5/2, tilt := -1, zoom := 350 })).2.data =
      ParseResult.ok [("home", { pan := 5/2, tilt := -1, zoom := 350 })] ∧
    recall_preset [("home", { pan := 5/2, tilt := -1, zoom := 350 })] "home" =
      some { pan := 5/2, tilt := -1, zoom := 350 } :=
  C3_round_trip "home" { pan := 5/2, tilt := -1, zoom := 350 }
    (by decide) (by with_unfolding_all decide) (by with_unfolding_all decide)
    (by with_unfolding_all decide) (by with_unfolding_all decide)
    (by with_unfolding_all decide) (by with_unfolding_all decide)

end BCC950
